import Mathlib

/-!
Shallow embedding of the AIDL compiler front-end AST model
(system/tools/aidl, aidl_language.h) together with the parts of the
resolution and diagnostic behaviour that the specification describes.
Inline member functions are translated directly from the header; member
functions whose bodies live outside the header are modelled from the
specification and marked as such in their doc comments.
-/

/-- Source position, AidlLocation::Point. -/
structure AidlLocationPoint where
  line : Nat
  column : Nat
deriving DecidableEq, Repr

/-- AidlLocation: file name plus begin and end points. -/
structure AidlLocation where
  file_ : String
  begin_ : AidlLocationPoint
  end_ : AidlLocationPoint
deriving DecidableEq, Repr

/-- Modelled from the spec: the stream rendering of AidlLocation
(operator<<) is not under src; sections 4.1 and 6 give the context form
"<file>:<line>:<col>". -/
def AidlLocation.render (l : AidlLocation) : String :=
  l.file_ ++ ":" ++ toString l.begin_.line ++ ":" ++ toString l.begin_.column

/-- Context argument accepted by the AidlError constructors: either a bare
file name or a full source location. -/
inductive AidlErrorContext where
  | fromFile (filename : String)
  | fromLocation (l : AidlLocation)

/-- Text the AidlError constructor writes for the context: the file-name
constructor streams the file name followed by ": ", the location
constructor streams the rendered location followed by ": ". -/
def AidlErrorContext.text : AidlErrorContext → String
  | .fromFile f => f ++ ": "
  | .fromLocation l => l.render ++ ": "

/-- Complete text an AidlError emission writes: the delegated private
constructor first writes "ERROR: ", the public constructor appends the
context text, the streamed message follows, and the destructor appends the
newline. -/
def AidlError.output (ctx : AidlErrorContext) (message : String) : String :=
  "ERROR: " ++ ctx.text ++ message ++ "\n"

/-- Whether the AidlError destructor aborts the process: exactly when the
fatal flag was set at construction. -/
def AidlError.aborts (fatal : Bool) : Bool := fatal

/-- AidlTypeSpecifier: unresolved base name, stored fully-qualified name
(empty when unresolved), array flag, optional owned generic type-parameter
list, comment text.  The opaque backend payload is omitted. -/
inductive AidlTypeSpecifier : Type where
  | mk (unresolved_name : String) (fully_qualified_name : String) (is_array : Bool)
      (type_params : Option (List AidlTypeSpecifier)) (comments : String)

/-- Accessor for the originally-written name, AidlTypeSpecifier::GetUnresolvedName. -/
def AidlTypeSpecifier.GetUnresolvedName : AidlTypeSpecifier → String
  | .mk u _ _ _ _ => u

/-- Accessor for the stored fully-qualified name field. -/
def AidlTypeSpecifier.fullyQualifiedName : AidlTypeSpecifier → String
  | .mk _ f _ _ _ => f

/-- Accessor for the comments field. -/
def AidlTypeSpecifier.GetComments : AidlTypeSpecifier → String
  | .mk _ _ _ _ c => c

/-- AidlTypeSpecifier::IsResolved: the fully-qualified name is non-empty. -/
def AidlTypeSpecifier.IsResolved (t : AidlTypeSpecifier) : Bool :=
  t.fullyQualifiedName ≠ ""

/-- AidlTypeSpecifier::GetName: the fully-qualified name when resolved,
the originally-written unresolved name otherwise. -/
def AidlTypeSpecifier.GetName (t : AidlTypeSpecifier) : String :=
  if t.IsResolved then t.fullyQualifiedName else t.GetUnresolvedName

/-- Accessor for the array flag. -/
def AidlTypeSpecifier.IsArray : AidlTypeSpecifier → Bool
  | .mk _ _ a _ _ => a

/-- Accessor for the owned type-parameter list; in the source this is a
possibly-null pointer, embedded as an Option. -/
def AidlTypeSpecifier.typeParams : AidlTypeSpecifier → Option (List AidlTypeSpecifier)
  | .mk _ _ _ tp _ => tp

/-- AidlTypeSpecifier::IsGeneric: the type-parameter list pointer is non-null. -/
def AidlTypeSpecifier.IsGeneric (t : AidlTypeSpecifier) : Bool :=
  t.typeParams.isSome

/-- AidlTypeSpecifier::GetTypeParameters dereferences the owned list
pointer; the total embedding returns the optional list itself, so the
none branch corresponds to the null dereference. -/
def AidlTypeSpecifier.GetTypeParameters (t : AidlTypeSpecifier) :
    Option (List AidlTypeSpecifier) :=
  t.typeParams

/-- Modelled from the spec: the body of AidlTypeSpecifier::Resolve is not
under src.  Section 4.3: look up the unresolved base name in the symbol
table; on success store the canonical fully-qualified name and report
success, on failure leave the specifier unresolved and report failure.
The symbol table is abstracted as a lookup from base name to canonical
name. -/
def AidlTypeSpecifier.Resolve (typenames : String → Option String) :
    AidlTypeSpecifier → AidlTypeSpecifier × Bool
  | .mk u f a tp c =>
    match typenames u with
    | some canonical => (.mk u canonical a tp c, true)
    | none => (.mk u f a tp c, false)

/-- AidlConstantValue::Type. -/
inductive AidlConstantValueType where
  | ERROR
  | INTEGER
  | STRING
deriving DecidableEq, Repr

/-- AidlConstantValue: kind tag plus checked value text, both fixed at
construction. -/
structure AidlConstantValue where
  type_ : AidlConstantValueType
  value_ : String
deriving DecidableEq, Repr

/-- AidlConstantValue::GetType. -/
def AidlConstantValue.GetType (v : AidlConstantValue) : AidlConstantValueType :=
  v.type_

/-- Recognizer for hexadecimal digit characters. -/
def isHexDigitChar (c : Char) : Bool :=
  ('0' ≤ c && c ≤ '9') || ('a' ≤ c && c ≤ 'f') || ('A' ≤ c && c ≤ 'F')

/-- Numeric value of one hexadecimal digit character. -/
def hexDigitValue (c : Char) : Nat :=
  if '0' ≤ c && c ≤ '9' then c.toNat - '0'.toNat
  else if 'a' ≤ c && c ≤ 'f' then c.toNat - 'a'.toNat + 10
  else if 'A' ≤ c && c ≤ 'F' then c.toNat - 'A'.toNat + 10
  else 0

/-- Numeric value of a string of hexadecimal digit characters. -/
def hexValue (cs : List Char) : Nat :=
  cs.foldl (fun acc c => 16 * acc + hexDigitValue c) 0

/-- AidlConstantValue::LiteralInt: always yields kind INTEGER. -/
def AidlConstantValue.LiteralInt (value : Int) : AidlConstantValue :=
  { type_ := AidlConstantValueType.INTEGER, value_ := toString value }

/-- Modelled from the spec: the body of AidlConstantValue::ParseHex is not
under src.  Section 4.5: it validates a 0x-prefixed hexadecimal literal
and yields kind INTEGER carrying the parsed value on success, kind ERROR
on malformed text, never raising. -/
def AidlConstantValue.ParseHex (value : String) : AidlConstantValue :=
  match value.toList with
  | '0' :: 'x' :: c :: rest =>
    if (c :: rest).all isHexDigitChar then
      { type_ := AidlConstantValueType.INTEGER, value_ := toString (hexValue (c :: rest)) }
    else
      { type_ := AidlConstantValueType.ERROR, value_ := "" }
  | _ => { type_ := AidlConstantValueType.ERROR, value_ := "" }

/-- AidlArgument::Direction with the source bitmask values IN_DIR = 1,
OUT_DIR = 2, INOUT_DIR = 3. -/
inductive AidlArgumentDirection where
  | IN_DIR
  | OUT_DIR
  | INOUT_DIR
deriving DecidableEq, Repr

/-- Numeric bitmask value of a direction, as in the source enum. -/
def AidlArgumentDirection.toNat : AidlArgumentDirection → Nat
  | .IN_DIR => 1
  | .OUT_DIR => 2
  | .INOUT_DIR => 3

/-- AidlArgument: direction, whether the direction was written
explicitly, the declared type and the name (the VariableDeclaration
part is flattened in). -/
structure AidlArgument where
  direction_ : AidlArgumentDirection
  direction_specified_ : Bool
  type_ : AidlTypeSpecifier
  name_ : String

/-- AidlArgument::GetDirection. -/
def AidlArgument.GetDirection (a : AidlArgument) : AidlArgumentDirection :=
  a.direction_

/-- AidlArgument::IsOut: bitwise test of the OUT bit. -/
def AidlArgument.IsOut (a : AidlArgument) : Bool :=
  (a.direction_.toNat &&& 2) != 0

/-- AidlArgument::IsIn: bitwise test of the IN bit. -/
def AidlArgument.IsIn (a : AidlArgument) : Bool :=
  (a.direction_.toNat &&& 1) != 0

/-- AidlArgument::DirectionWasSpecified. -/
def AidlArgument.DirectionWasSpecified (a : AidlArgument) : Bool :=
  a.direction_specified_

/-- AidlMethod: oneway flag, comments, return type, name, owned argument
list, the two computed argument views, and the optional transaction id. -/
structure AidlMethod where
  oneway_ : Bool
  comments_ : String
  type_ : AidlTypeSpecifier
  name_ : String
  arguments_ : List AidlArgument
  in_arguments_ : List AidlArgument
  out_arguments_ : List AidlArgument
  has_id_ : Bool
  id_ : Int

/-- Modelled from the spec: the AidlMethod constructor body is not under
src.  Section 4.6: the in and out views are computed once, at
construction, by scanning the owned argument list in order and testing
each argument's direction bitmask. -/
def AidlMethod.mkMethod (oneway : Bool) (type : AidlTypeSpecifier) (name : String)
    (args : List AidlArgument) (comments : String) (hasId : Bool) (id : Int) :
    AidlMethod :=
  { oneway_ := oneway
    comments_ := comments
    type_ := type
    name_ := name
    arguments_ := args
    in_arguments_ := args.filter (fun a => a.IsIn)
    out_arguments_ := args.filter (fun a => a.IsOut)
    has_id_ := hasId
    id_ := id }

/-- AidlMethod::GetArguments. -/
def AidlMethod.GetArguments (m : AidlMethod) : List AidlArgument :=
  m.arguments_

/-- AidlMethod::GetInArguments. -/
def AidlMethod.GetInArguments (m : AidlMethod) : List AidlArgument :=
  m.in_arguments_

/-- AidlMethod::GetOutArguments. -/
def AidlMethod.GetOutArguments (m : AidlMethod) : List AidlArgument :=
  m.out_arguments_

/-- AidlQualifiedName: ordered identifier terms plus comments. -/
structure AidlQualifiedName where
  terms_ : List String
  comments_ : String

/-- AidlQualifiedName::GetDotName: dot-joined terms. -/
def AidlQualifiedName.GetDotName (q : AidlQualifiedName) : String :=
  String.intercalate "." q.terms_

/-- AidlVariableDeclaration: owned type, name, optional owned default value. -/
structure AidlVariableDeclaration where
  type_ : AidlTypeSpecifier
  name_ : String
  default_value_ : Option AidlConstantValue

/-- AidlConstantDeclaration: type, name, owned value. -/
structure AidlConstantDeclaration where
  type_ : AidlTypeSpecifier
  name_ : String
  value_ : AidlConstantValue

/-- Variant data distinguishing the three concrete defined-type classes:
AidlParcelable (unstructured, with its qualified name and native header
hint), AidlStructuredParcelable (which in the source derives from
AidlParcelable and adds the owned field list), and AidlInterface (oneway
flag, owned methods, owned constant declarations). -/
inductive AidlDefinedTypeKind where
  | parcelable (name : AidlQualifiedName) (cpp_header : String)
  | structuredParcelable (name : AidlQualifiedName)
      (fields : List AidlVariableDeclaration)
  | interface (oneway : Bool) (methods : List AidlMethod)
      (constants : List AidlConstantDeclaration)

/-- AidlDefinedType: local name, comments, package segments fixed at
construction, the opaque backend payload slot (attached or not), the
annotation set (an annotation is identified by its name), and the
concrete variant. -/
structure AidlDefinedType where
  name_ : String
  comments_ : String
  package_ : List String
  language_type_ : Option Unit
  annotations_ : List String
  kind : AidlDefinedTypeKind

/-- AidlDefinedType::GetName. -/
def AidlDefinedType.GetName (d : AidlDefinedType) : String :=
  d.name_

/-- AidlDefinedType::GetSplitPackage. -/
def AidlDefinedType.GetSplitPackage (d : AidlDefinedType) : List String :=
  d.package_

/-- Modelled from the spec: the body of AidlDefinedType::GetPackage is not
under src.  Header comment and section 4.7: the dot-joined package. -/
def AidlDefinedType.GetPackage (d : AidlDefinedType) : String :=
  String.intercalate "." d.package_

/-- Modelled from the spec: the body of AidlDefinedType::GetCanonicalName
is not under src.  Section 4.7: package segments dot-joined, followed by
a dot, followed by the local name. -/
def AidlDefinedType.GetCanonicalName (d : AidlDefinedType) : String :=
  String.intercalate "." d.package_ ++ "." ++ d.name_

/-- AidlDefinedType::SetLanguageType: attaches the opaque backend payload. -/
def AidlDefinedType.SetLanguageType (d : AidlDefinedType) (lt : Option Unit) :
    AidlDefinedType :=
  { d with language_type_ := lt }

/-- AidlAnnotatable::Annotate: replaces the whole annotation set. -/
def AidlDefinedType.Annotate (d : AidlDefinedType) (anns : List String) :
    AidlDefinedType :=
  { d with annotations_ := anns }

/-- AidlDefinedType::AsStructuredParcelable: the base virtual returns
null and only AidlStructuredParcelable overrides it with itself. -/
def AidlDefinedType.AsStructuredParcelable (d : AidlDefinedType) :
    Option AidlDefinedType :=
  match d.kind with
  | .structuredParcelable _ _ => some d
  | _ => none

/-- AidlDefinedType::AsParcelable: the base virtual returns null,
AidlParcelable overrides it with itself, and AidlStructuredParcelable
inherits that override, so both parcelable variants answer non-null. -/
def AidlDefinedType.AsParcelable (d : AidlDefinedType) : Option AidlDefinedType :=
  match d.kind with
  | .parcelable _ _ => some d
  | .structuredParcelable _ _ => some d
  | .interface _ _ _ => none

/-- AidlDefinedType::AsInterface: the base virtual returns null and only
AidlInterface overrides it with itself. -/
def AidlDefinedType.AsInterface (d : AidlDefinedType) : Option AidlDefinedType :=
  match d.kind with
  | .interface _ _ _ => some d
  | _ => none

/-- AidlDefinedType::AsUnstructuredParcelable: null whenever
AsStructuredParcelable answers non-null, otherwise whatever AsParcelable
answers. -/
def AidlDefinedType.AsUnstructuredParcelable (d : AidlDefinedType) :
    Option AidlDefinedType :=
  if d.AsStructuredParcelable.isSome then none else d.AsParcelable

/-- AidlDocument: ordered owned list of top-level defined types. -/
structure AidlDocument where
  defined_types_ : List AidlDefinedType

/-- AidlDocument::GetDefinedTypes. -/
def AidlDocument.GetDefinedTypes (d : AidlDocument) : List AidlDefinedType :=
  d.defined_types_

/-- AidlDocument::AddDefinedType: appends to the owned list. -/
def AidlDocument.AddDefinedType (d : AidlDocument) (t : AidlDefinedType) :
    AidlDocument :=
  ⟨d.defined_types_ ++ [t]⟩

/-- Modelled from the spec: the body of AidlDocument::ReleaseDefinedType
is not under src.  Section 4.9: ownership of the defined type is
transferred out of the document, a single transfer, so the released type
leaves the owned list. -/
def AidlDocument.ReleaseDefinedType (d : AidlDocument) :
    Option AidlDefinedType × AidlDocument :=
  match d.defined_types_ with
  | [] => (none, ⟨[]⟩)
  | t :: ts => (some t, ⟨ts⟩)

/-- AidlImport: resolved file name, the textual needed class, and the
later-attached parsed document. -/
structure AidlImport where
  filename_ : String
  needed_class_ : String
  imported_doc_ : Option AidlDocument

/-- Parser state: error counter, file name, package, owned document,
owned import list, and the deferred type-specifier queue. -/
structure Parser where
  error_ : Nat
  filename_ : String
  package_ : Option AidlQualifiedName
  document_ : Option AidlDocument
  imports_ : List AidlImport
  unresolved_typespecs_ : List AidlTypeSpecifier

/-- Parser::AddError: increments the error counter. -/
def Parser.AddError (p : Parser) : Parser :=
  { p with error_ := p.error_ + 1 }

/-- Parser::GetImports. -/
def Parser.GetImports (p : Parser) : List AidlImport :=
  p.imports_

/-- Parser::ReleaseImports: moves the import list out and leaves the
parser's own list cleared. -/
def Parser.ReleaseImports (p : Parser) : List AidlImport × Parser :=
  (p.imports_, { p with imports_ := [] })

/-- Parser::DeferResolution: appends the specifier to the deferred queue. -/
def Parser.DeferResolution (p : Parser) (t : AidlTypeSpecifier) : Parser :=
  { p with unresolved_typespecs_ := p.unresolved_typespecs_ ++ [t] }

/-- Resolution of a list of deferred specifiers in order, keeping every
updated specifier and conjoining the per-specifier results. -/
def resolveList (typenames : String → Option String) :
    List AidlTypeSpecifier → List AidlTypeSpecifier × Bool
  | [] => ([], true)
  | t :: ts =>
    let r := t.Resolve typenames
    let rest := resolveList typenames ts
    (r.1 :: rest.1, r.2 && rest.2)

/-- Modelled from the spec: the body of Parser::Resolve is not under src.
Section 4.10: iterate the deferred list in registration order, call
Resolve on each specifier against the now-complete symbol table, and
aggregate a single result where any single failure fails the whole
unit. -/
def Parser.Resolve (p : Parser) (typenames : String → Option String) :
    Parser × Bool :=
  let r := resolveList typenames p.unresolved_typespecs_
  ({ p with unresolved_typespecs_ := r.1 }, r.2)

/-- Sample defined type used to instantiate closed statements. -/
def sampleDefinedType : AidlDefinedType :=
  { name_ := "Foo"
    comments_ := ""
    package_ := ["a", "b"]
    language_type_ := none
    annotations_ := []
    kind := AidlDefinedTypeKind.parcelable ⟨["Foo"], ""⟩ "" }

/-- Sample document holding exactly the sample defined type. -/
def sampleDocument : AidlDocument :=
  ⟨[sampleDefinedType]⟩

/-- Sample unresolved type specifier. -/
def sampleSpecifier : AidlTypeSpecifier :=
  AidlTypeSpecifier.mk "IFoo" "" false none ""

/-- Sample resolved type specifier. -/
def sampleResolvedSpecifier : AidlTypeSpecifier :=
  AidlTypeSpecifier.mk "IFoo" "foo.bar.IFoo" false none ""

/-- Sample generic type specifier with one type parameter. -/
def sampleGenericSpecifier : AidlTypeSpecifier :=
  AidlTypeSpecifier.mk "List" "" false (some [sampleSpecifier]) ""

/-- Sample argument with direction IN. -/
def sampleArgIn : AidlArgument :=
  ⟨AidlArgumentDirection.IN_DIR, true, sampleSpecifier, "x"⟩

/-- Sample argument with direction OUT. -/
def sampleArgOut : AidlArgument :=
  ⟨AidlArgumentDirection.OUT_DIR, true, sampleSpecifier, "y"⟩

/-- Sample argument with direction INOUT. -/
def sampleArgInout : AidlArgument :=
  ⟨AidlArgumentDirection.INOUT_DIR, true, sampleSpecifier, "z"⟩

/-- Helper: the first component of resolveList is the in-order list of
individually resolved specifiers. -/
theorem resolveList_fst (tn : String → Option String) (ts : List AidlTypeSpecifier) :
    (resolveList tn ts).1 = ts.map (fun s => (s.Resolve tn).1) := by
  induction ts with
  | nil => rfl
  | cons x xs ih => simp [resolveList, ih]

/-- Helper: the second component of resolveList is the conjunction of the
per-specifier results. -/
theorem resolveList_snd (tn : String → Option String) (ts : List AidlTypeSpecifier) :
    (resolveList tn ts).2 = ts.all (fun s => (s.Resolve tn).2) := by
  induction ts with
  | nil => rfl
  | cons x xs ih => simp [resolveList, List.all_cons, ih]

/-- Helper: the IsIn and IsOut bitmask tests hold exactly for the
directions that contain the respective bit. -/
theorem argument_direction_bits (a : AidlArgument) :
    (a.IsIn = true ↔ (a.GetDirection = AidlArgumentDirection.IN_DIR
        ∨ a.GetDirection = AidlArgumentDirection.INOUT_DIR))
    ∧ (a.IsOut = true ↔ (a.GetDirection = AidlArgumentDirection.OUT_DIR
        ∨ a.GetDirection = AidlArgumentDirection.INOUT_DIR)) := by
  rcases a with ⟨dir, sp, ty, nm⟩
  cases dir <;>
    simp [AidlArgument.IsIn, AidlArgument.IsOut, AidlArgument.GetDirection,
      AidlArgumentDirection.toNat]

/-- Claim C1: for every AidlTypeSpecifier, IsResolved is true exactly when
the stored fully-qualified name is non-empty, and GetName returns the
fully-qualified name when IsResolved is true and the originally-written
unresolved name otherwise. -/
theorem typespecifier_resolved_name (t : AidlTypeSpecifier) :
    (t.IsResolved = true ↔ t.fullyQualifiedName ≠ "")
    ∧ t.GetName = (if t.fullyQualifiedName = "" then t.GetUnresolvedName
        else t.fullyQualifiedName) := by
  constructor
  · simp [AidlTypeSpecifier.IsResolved]
  · by_cases h : t.fullyQualifiedName = "" <;>
      simp [AidlTypeSpecifier.GetName, AidlTypeSpecifier.IsResolved, h]

/-- Witness for claim C1 at a concrete resolved specifier. -/
theorem typespecifier_resolved_name_witness :
    (sampleResolvedSpecifier.IsResolved = true
      ↔ sampleResolvedSpecifier.fullyQualifiedName ≠ "")
    ∧ sampleResolvedSpecifier.GetName
        = (if sampleResolvedSpecifier.fullyQualifiedName = ""
           then sampleResolvedSpecifier.GetUnresolvedName
           else sampleResolvedSpecifier.fullyQualifiedName) :=
  typespecifier_resolved_name sampleResolvedSpecifier

/-- Claim C2: Parser::Resolve visits the deferred specifiers in
registration order (DeferResolution appends, Resolve maps over the queue
in order), calling Resolve on each against the symbol table, and the
aggregate result is true exactly when every specifier resolves. -/
theorem parser_resolve_deferred (p : Parser) (tn : String → Option String)
    (t : AidlTypeSpecifier) :
    ((p.Resolve tn).1.unresolved_typespecs_
        = p.unresolved_typespecs_.map (fun s => (s.Resolve tn).1))
    ∧ ((p.Resolve tn).2 = p.unresolved_typespecs_.all (fun s => (s.Resolve tn).2))
    ∧ ((p.DeferResolution t).unresolved_typespecs_
        = p.unresolved_typespecs_ ++ [t]) :=
  ⟨resolveList_fst tn p.unresolved_typespecs_,
    resolveList_snd tn p.unresolved_typespecs_, rfl⟩

/-- Claim C3: for a method built by the constructor, the in-view is the
order-preserving sublist of exactly the arguments whose direction has the
IN bit set (IN or INOUT) and the out-view that of exactly the arguments
with the OUT bit set (OUT or INOUT); hence INOUT arguments appear in both
views, IN only in the in-view, OUT only in the out-view. -/
theorem method_in_out_views (oneway : Bool) (ty : AidlTypeSpecifier) (nm : String)
    (args : List AidlArgument) (cm : String) (hid : Bool) (i : Int)
    (a : AidlArgument) :
    List.Sublist (AidlMethod.mkMethod oneway ty nm args cm hid i).GetInArguments
        (AidlMethod.mkMethod oneway ty nm args cm hid i).GetArguments
    ∧ List.Sublist (AidlMethod.mkMethod oneway ty nm args cm hid i).GetOutArguments
        (AidlMethod.mkMethod oneway ty nm args cm hid i).GetArguments
    ∧ (a ∈ (AidlMethod.mkMethod oneway ty nm args cm hid i).GetInArguments
        ↔ a ∈ args ∧ (a.GetDirection = AidlArgumentDirection.IN_DIR
            ∨ a.GetDirection = AidlArgumentDirection.INOUT_DIR))
    ∧ (a ∈ (AidlMethod.mkMethod oneway ty nm args cm hid i).GetOutArguments
        ↔ a ∈ args ∧ (a.GetDirection = AidlArgumentDirection.OUT_DIR
            ∨ a.GetDirection = AidlArgumentDirection.INOUT_DIR)) := by
  refine ⟨List.filter_sublist _, List.filter_sublist _, ?_, ?_⟩
  · show a ∈ args.filter (fun x => x.IsIn) ↔ _
    rw [List.mem_filter]
    exact and_congr_right fun _ => (argument_direction_bits a).1
  · show a ∈ args.filter (fun x => x.IsOut) ↔ _
    rw [List.mem_filter]
    exact and_congr_right fun _ => (argument_direction_bits a).2

/-- Witness for claim C3 at a concrete method with one argument of each
direction, querying the INOUT argument. -/
theorem method_in_out_views_witness :
    List.Sublist (AidlMethod.mkMethod false sampleSpecifier "m"
        [sampleArgIn, sampleArgOut, sampleArgInout] "" false 0).GetInArguments
        (AidlMethod.mkMethod false sampleSpecifier "m"
        [sampleArgIn, sampleArgOut, sampleArgInout] "" false 0).GetArguments
    ∧ List.Sublist (AidlMethod.mkMethod false sampleSpecifier "m"
        [sampleArgIn, sampleArgOut, sampleArgInout] "" false 0).GetOutArguments
        (AidlMethod.mkMethod false sampleSpecifier "m"
        [sampleArgIn, sampleArgOut, sampleArgInout] "" false 0).GetArguments
    ∧ (sampleArgInout ∈ (AidlMethod.mkMethod false sampleSpecifier "m"
        [sampleArgIn, sampleArgOut, sampleArgInout] "" false 0).GetInArguments
        ↔ sampleArgInout ∈ [sampleArgIn, sampleArgOut, sampleArgInout]
          ∧ (sampleArgInout.GetDirection = AidlArgumentDirection.IN_DIR
            ∨ sampleArgInout.GetDirection = AidlArgumentDirection.INOUT_DIR))
    ∧ (sampleArgInout ∈ (AidlMethod.mkMethod false sampleSpecifier "m"
        [sampleArgIn, sampleArgOut, sampleArgInout] "" false 0).GetOutArguments
        ↔ sampleArgInout ∈ [sampleArgIn, sampleArgOut, sampleArgInout]
          ∧ (sampleArgInout.GetDirection = AidlArgumentDirection.OUT_DIR
            ∨ sampleArgInout.GetDirection = AidlArgumentDirection.INOUT_DIR)) :=
  method_in_out_views false sampleSpecifier "m"
    [sampleArgIn, sampleArgOut, sampleArgInout] "" false 0 sampleArgInout

/-- Claim C4: for every AidlDefinedType exactly one variant is active: an
interface answers non-null only to AsInterface; an unstructured
parcelable answers non-null to AsParcelable and AsUnstructuredParcelable;
a structured parcelable answers non-null to both AsStructuredParcelable
and AsParcelable while AsUnstructuredParcelable answers null for it. -/
theorem defined_type_variant_downcasts (d : AidlDefinedType) :
    (d.AsInterface.isSome, d.AsParcelable.isSome, d.AsStructuredParcelable.isSome,
      d.AsUnstructuredParcelable.isSome)
    = (match d.kind with
      | AidlDefinedTypeKind.interface _ _ _ => (true, false, false, false)
      | AidlDefinedTypeKind.parcelable _ _ => (false, true, false, true)
      | AidlDefinedTypeKind.structuredParcelable _ _ => (false, true, true, false)) := by
  rcases d with ⟨n, c, pk, lt, an, k⟩
  cases k <;> rfl

/-- Claim C5: ParseHex on "0x4f" yields kind INTEGER with numeric value
79, ParseHex on text lacking the 0x prefix such as "4f" yields kind
ERROR, and on every input the result kind is INTEGER or ERROR (total,
never raising). -/
theorem parse_hex_spec :
    AidlConstantValue.ParseHex "0x4f"
        = { type_ := AidlConstantValueType.INTEGER, value_ := "79" }
    ∧ (AidlConstantValue.ParseHex "4f").GetType = AidlConstantValueType.ERROR
    ∧ (∀ s, (AidlConstantValue.ParseHex s).GetType = AidlConstantValueType.INTEGER
        ∨ (AidlConstantValue.ParseHex s).GetType = AidlConstantValueType.ERROR) := by
  refine ⟨by decide, by decide, ?_⟩
  intro s
  unfold AidlConstantValue.ParseHex
  split
  · split
    · exact Or.inl rfl
    · exact Or.inr rfl
  · exact Or.inr rfl

/-- Claim C6: every AidlError emission writes "ERROR: ", then the context
text "<file>: " or "<file>:<line>:<col>: ", then the message, then a
newline; the destructor aborts exactly when the fatal flag is set; and
Parser::AddError only increments the error counter, leaving the rest of
the parser state unchanged. -/
theorem aidl_error_format (fatal : Bool) (f : String) (l : AidlLocation)
    (msg : String) (p : Parser) :
    AidlError.output (AidlErrorContext.fromFile f) msg
        = "ERROR: " ++ (f ++ ": ") ++ msg ++ "\n"
    ∧ AidlError.output (AidlErrorContext.fromLocation l) msg
        = "ERROR: " ++ (l.file_ ++ ":" ++ toString l.begin_.line ++ ":"
            ++ toString l.begin_.column ++ ": ") ++ msg ++ "\n"
    ∧ AidlError.aborts fatal = fatal
    ∧ p.AddError.error_ = p.error_ + 1
    ∧ p.AddError.imports_ = p.imports_
    ∧ p.AddError.unresolved_typespecs_ = p.unresolved_typespecs_
    ∧ p.AddError.document_ = p.document_ :=
  ⟨rfl, rfl, rfl, rfl, rfl, rfl, rfl⟩

/-- Claim C7: GetCanonicalName equals the package segments joined with
dots, followed by a dot, followed by the local name, for every package
list including the empty one, and the package segments are unchanged by
the mutating operations the type exposes. -/
theorem defined_type_canonical_name (d : AidlDefinedType) (lt : Option Unit)
    (anns : List String) :
    d.GetCanonicalName = String.intercalate "." d.GetSplitPackage ++ "." ++ d.GetName
    ∧ (d.SetLanguageType lt).GetSplitPackage = d.GetSplitPackage
    ∧ (d.Annotate anns).GetSplitPackage = d.GetSplitPackage
    ∧ (d.SetLanguageType lt).GetCanonicalName = d.GetCanonicalName
    ∧ (d.Annotate anns).GetCanonicalName = d.GetCanonicalName :=
  ⟨rfl, rfl, rfl, rfl, rfl⟩

/-- Claim C8: after ReleaseDefinedType succeeds on a document whose owned
list holds distinct types, the released type no longer appears in
GetDefinedTypes. -/
theorem document_release_removes (d : AidlDocument) (t : AidlDefinedType)
    (hnd : d.defined_types_.Nodup) (h : (d.ReleaseDefinedType).1 = some t) :
    t ∉ (d.ReleaseDefinedType).2.GetDefinedTypes := by
  rcases d with ⟨dts⟩
  cases dts with
  | nil => simp [AidlDocument.ReleaseDefinedType] at h
  | cons x xs =>
    have hx : x = t := by
      simpa [AidlDocument.ReleaseDefinedType] using h
    subst hx
    have hmem := (List.nodup_cons.mp hnd).1
    simpa [AidlDocument.ReleaseDefinedType, AidlDocument.GetDefinedTypes] using hmem

/-- Witness for claim C8 at a concrete one-type document. -/
theorem document_release_removes_witness :
    sampleDocument.defined_types_.Nodup
    ∧ (sampleDocument.ReleaseDefinedType).1 = some sampleDefinedType
    ∧ sampleDefinedType ∉ (sampleDocument.ReleaseDefinedType).2.GetDefinedTypes :=
  ⟨List.nodup_singleton _, rfl,
    document_release_removes sampleDocument sampleDefinedType
      (List.nodup_singleton _) rfl⟩

/-- Claim C9: GetTypeParameters, embedded totally as an Option, is some
exactly when IsGeneric holds, so the null-dereference branch of the
source accessor is unreachable exactly under the IsGeneric precondition. -/
theorem typespecifier_generic_params (t : AidlTypeSpecifier) :
    (t.GetTypeParameters).isSome = t.IsGeneric
    ∧ (t.IsGeneric = true ↔ ∃ ps, t.GetTypeParameters = some ps) := by
  refine ⟨rfl, ?_⟩
  simp [AidlTypeSpecifier.IsGeneric, AidlTypeSpecifier.GetTypeParameters,
    Option.isSome_iff_exists]

/-- Witness for claim C9 at a concrete generic specifier. -/
theorem typespecifier_generic_params_witness :
    (sampleGenericSpecifier.GetTypeParameters).isSome = sampleGenericSpecifier.IsGeneric
    ∧ (sampleGenericSpecifier.IsGeneric = true
        ↔ ∃ ps, sampleGenericSpecifier.GetTypeParameters = some ps) :=
  typespecifier_generic_params sampleGenericSpecifier

/-- Claim C10: ReleaseImports returns exactly the previously held import
list in order, and afterwards GetImports on the parser is empty, so a
second ReleaseImports yields an empty list. -/
theorem parser_release_imports (p : Parser) :
    (p.ReleaseImports).1 = p.GetImports
    ∧ (p.ReleaseImports).2.GetImports = []
    ∧ ((p.ReleaseImports).2.ReleaseImports).1 = [] :=
  ⟨rfl, rfl, rfl⟩
